import Mathlib

/-!
# Shallow embedding of `apache_beam/runners/interactive/interactive_beam.py`

This file embeds the interactive-Beam orchestration module in Lean:

* the data model (PCollections, the interactive environment, result handles);
* the configuration object `Options` with its `capture_duration` /
  `capture_size_limit` setters;
* the user-facing operations `show`, `collect` and `head` (named `show'`,
  `collect'` and `head'` here, since `show` is a Lean keyword and the primed
  names keep the correspondence visible).

External collaborators (the execution engine, cache manager, visualization)
are modelled as abstract parameters: the engine is a function from the target
list of a pipeline fragment to the result handle of running that fragment,
and the cache manager is a function from a PCollection to its cached
elements.  Side effects of a call are recorded in an explicit event trace, so
that temporal claims (ordering of `watch_sources`, `watch`, the background
caching job attempt, fragment execution, `wait_until_finish`,
`mark_pcollection_computed`, reads and visualization) become statements about
the trace.  An error return (`Except.error`) models a Python exception raised
during the validation phase, before any side effect has occurred.
-/

namespace InteractiveBeam

/-- A `beam.pvalue.PCollection`: identified by its Python object id (`id(pcoll)`)
and the identity of the pipeline it belongs to (`pcoll.pipeline`). -/
structure PColl where
  id : Nat
  pipeline : Nat
deriving DecidableEq

/-- A value bound to a watched variable name: either a PCollection or some
other Python value (abstracted by a numeric tag). -/
inductive Val where
  | pcoll (p : PColl)
  | other (tag : Nat)
deriving DecidableEq

/-- Final state of a pipeline result (`beam.runners.runner.PipelineState`). -/
inductive PipelineState where
  | RUNNING
  | DONE
  | FAILED
  | CANCELLED
deriving DecidableEq

/-- An element of a PCollection (abstract). -/
abbrev Elem := Nat

/-- The result handle returned by `PipelineFragment(...).run()`: its state
after `wait_until_finish`, and the elements `result.read(pcoll, ...)` yields
for each PCollection. -/
structure ResultHandle where
  state : PipelineState
  readElems : PColl → List Elem

/-- The execution engine collaborator: maps the target list of a pipeline
fragment (the argument of `pf.PipelineFragment(list(pcolls), options)`) to
the result handle obtained by running that fragment. -/
abbrev Engine := List PColl → ResultHandle

/-- The interactive environment `ie.current_env()`:
`watching` is the sequence of watched bindings returned by `watching()`
(each entry a list of (variable name, value) pairs), `computed` is the set
of computed PCollections, `cache` gives the elements the cache manager
holds under the `full` tag for a PCollection's cache key, `pipelineResults`
records `set_pipeline_result` calls, and the two flags are
`is_in_notebook` / `is_in_ipython`. -/
structure Env where
  watching : List (List (String × Val))
  computed : List PColl
  cache : PColl → List Elem
  pipelineResults : List (Nat × ResultHandle)
  isInNotebook : Bool
  isInIPython : Bool

/-- The variable name made up for an unwatched PCollection:
`'anonymous_pcollection_{}'.format(id(pcoll))`. -/
def anonName (p : PColl) : String :=
  "anonymous_pcollection_" ++ toString p.id

/-- The PCollections among a sequence of watched bindings. -/
def watchedOf (w : List (List (String × Val))) : List PColl :=
  w.flatten.filterMap fun nv =>
    match nv.2 with
    | Val.pcoll p => some p
    | Val.other _ => none

/-- The watched PCollections: every value in any watched binding that is an
`apache_beam.pvalue.PCollection` (the `watched_pcollections` set computed by
`show` and `head`). -/
def watchedPColls (env : Env) : List PColl :=
  watchedOf env.watching

/-- `ie.current_env().mark_pcollection_computed(pcolls)`: adds the given
PCollections to the computed set (set-update semantics). -/
def markComputedEnv (env : Env) (ps : List PColl) : Env :=
  { env with computed := env.computed ++ ps.filter fun p => !decide (p ∈ env.computed) }

/-- Deterministic model of Python's `set(pcolls)` conversion in `show`:
duplicates are removed (keeping the first occurrence).  Python's set
iteration order is unspecified; the claims below depend only on membership. -/
def dedupFirst (l : List PColl) : List PColl :=
  l.reverse.dedup.reverse

/-- One step of a `show`/`head` call, as recorded in the event trace. -/
inductive Event where
  | watchSources (pipeline : Nat)
  | watchPColl (name : String) (p : PColl)
  | attemptBcj (pipeline : Nat)
  | visualize (p : PColl)
  | runFragment (targets : List PColl)
  | setPipelineResult (pipeline : Nat)
  | waitUntilFinish
  | markComputed (ps : List PColl)
  | readCache (p : PColl)
  | readResult (p : PColl)
deriving DecidableEq

/-- The loop in `show` that watches every target PCollection that is not in
the (pre-computed) `watched_pcollections` set, under a made-up anonymous
variable name.  Returns the updated environment and the watch events, in
target order. -/
def watchUnwatched (watched : List PColl) (env : Env) : List PColl → Env × List Event
  | [] => (env, [])
  | p :: ps =>
    if p ∈ watched then watchUnwatched watched env ps
    else
      let env' := { env with watching := env.watching ++ [[(anonName p, Val.pcoll p)]] }
      let rest := watchUnwatched watched env' ps
      (rest.1, Event.watchPColl (anonName p) p :: rest.2)

/-- Errors raised by `show`'s validation phase (Python `ValueError` for a
non-iterable argument, `AssertionError` otherwise; the cross-pipeline
assertion is the spec's `CrossPipelineError`). -/
inductive ShowError where
  | notIterable
  | needAtLeastOnePColl
  | notAPCollection
  | crossPipeline
  | unexpectedConfigs
deriving DecidableEq

/-- A positional argument of `show`: a dict (abstracted to its list of
values, in insertion order), a bare PCollection, some other iterable
(abstracted to the list of values it yields), or a non-iterable value. -/
inductive ShowArg where
  | dict (values : List Val)
  | pcoll (p : PColl)
  | iterable (values : List Val)
  | nonIterable (tag : Nat)
deriving DecidableEq

/-- The keyword arguments of `show`: the two recognized boolean configs
(absent keys default to `False` via `configs.pop`) and the names of any
other keyword arguments. -/
structure Configs where
  includeWindowInfo : Option Bool
  visualizeData : Option Bool
  extra : List String
deriving DecidableEq

/-- Flattening of one positional argument of `show`: a dict contributes its
values, a PCollection itself, any other iterable its elements; a
non-iterable raises `ValueError`. -/
def flattenArg : ShowArg → Except ShowError (List Val)
  | ShowArg.dict vs => Except.ok vs
  | ShowArg.pcoll p => Except.ok [Val.pcoll p]
  | ShowArg.iterable vs => Except.ok vs
  | ShowArg.nonIterable _ => Except.error ShowError.notIterable

/-- The `flatten_pcolls` accumulation loop of `show`, stopping at the first
non-iterable argument. -/
def flattenArgs : List ShowArg → Except ShowError (List Val)
  | [] => Except.ok []
  | a :: as =>
    match flattenArg a with
    | Except.error e => Except.error e
    | Except.ok vs =>
      match flattenArgs as with
      | Except.error e => Except.error e
      | Except.ok rest => Except.ok (vs ++ rest)

/-- The per-element type assertion of `show`: every flattened value must be
an `apache_beam.pvalue.PCollection`. -/
def checkAllPColls : List Val → Except ShowError (List PColl)
  | [] => Except.ok []
  | Val.pcoll p :: vs =>
    match checkAllPColls vs with
    | Except.error e => Except.error e
    | Except.ok ps => Except.ok (p :: ps)
  | Val.other _ :: _ => Except.error ShowError.notAPCollection

/-- The validation phase of `show` after flattening, in source order: the
non-emptiness assertion, the per-element PCollection assertion, then the
same-pipeline assertion against the first target's pipeline. -/
def validateTargets (vs : List Val) : Except ShowError (List PColl × Nat) :=
  if vs.isEmpty then Except.error ShowError.needAtLeastOnePColl
  else
    match checkAllPColls vs with
    | Except.error e => Except.error e
    | Except.ok ps =>
      match ps with
      | [] => Except.error ShowError.needAtLeastOnePColl
      | p0 :: _ =>
        if ps.all fun p => p.pipeline = p0.pipeline then Except.ok (ps, p0.pipeline)
        else Except.error ShowError.crossPipeline

/-- Flattening plus validation: the target PCollections of a `show` call and
their common pipeline. -/
def showTargets (args : List ShowArg) : Except ShowError (List PColl × Nat) :=
  match flattenArgs args with
  | Except.error e => Except.error e
  | Except.ok vs => validateTargets vs

/-- The effectful body of `show` (source lines 318-395): `watch_sources`,
watching of unwatched targets, the background caching job attempt,
deduplication of the targets, splitting off already-computed targets and
visualizing them (statically, when in a notebook or ipython shell), then —
unless every target was computed — building and running a pipeline fragment
for the remaining targets, recording the result, dynamic plotting in a
notebook, `wait_until_finish`, static plotting in a plain ipython shell, and
marking the targets computed when the final state is `DONE`. -/
def showBody (env : Env) (engine : Engine) (ts : List PColl) (pl : Nat) :
    Env × List Event :=
  let watched := watchedPColls env
  let wres := watchUnwatched watched env ts
  let env1 := wres.1
  let dts := dedupFirst ts
  let computedTs := dts.filter fun p => decide (p ∈ env1.computed)
  let todo := dts.filter fun p => !decide (p ∈ env1.computed)
  let visC :=
    if env1.isInNotebook || env1.isInIPython then computedTs.map Event.visualize else []
  let preTrace := Event.watchSources pl :: wres.2 ++ [Event.attemptBcj pl] ++ visC
  if todo.isEmpty then (env1, preTrace)
  else
    let result := engine todo
    let env2 := { env1 with pipelineResults := env1.pipelineResults ++ [(pl, result)] }
    let dynVis := if env2.isInNotebook then todo.map Event.visualize else []
    let shellVis :=
      if env2.isInIPython && !env2.isInNotebook then todo.map Event.visualize else []
    let tr := preTrace ++ [Event.runFragment todo, Event.setPipelineResult pl] ++
      dynVis ++ [Event.waitUntilFinish] ++ shellVis
    if result.state = PipelineState.DONE then
      (markComputedEnv env2 todo, tr ++ [Event.markComputed todo])
    else (env2, tr)

/-- `show(*pcolls, **configs)`: flattening and validation of the positional
arguments, extraction of the two recognized configs (the assertion that no
other keyword argument remains), then the effectful body.  An error return
models the Python exception raised before any side effect. -/
def show' (env : Env) (engine : Engine) (args : List ShowArg) (cfg : Configs) :
    Except ShowError (Env × List Event) :=
  match showTargets args with
  | Except.error e => Except.error e
  | Except.ok (ts, pl) =>
    if cfg.extra = [] then Except.ok (showBody env engine ts pl)
    else Except.error ShowError.unexpectedConfigs

/-- The dataframe returned by `elements_to_df(results, include_window_info)`:
abstracted as the list of collected elements together with the flag. -/
structure DF where
  elems : List Elem
  includeWindowInfo : Bool
deriving DecidableEq

/-- The element-collection loop of `head`:
`for e in elements: results.append(e); if len(results) >= n and n > 0: break`. -/
def headLoop (n : Int) : List Elem → List Elem → List Elem
  | [], results => results
  | e :: es, results =>
    let results' := results ++ [e]
    if (n ≤ (results'.length : Int)) ∧ 0 < n then results'
    else headLoop n es results'

/-- The error raised by `head`'s argument assertion. -/
inductive HeadError where
  | notAPCollection
deriving DecidableEq

/-- `head(pcoll, n, include_window_info)`: asserts the argument is a
PCollection, runs `watch_sources`, watches the PCollection if unwatched,
attempts the background caching job; then either reads the elements back
from the cache manager (when the PCollection is already computed) or builds
and runs a pipeline fragment, records the result, blocks on
`wait_until_finish`, marks the PCollection computed when the state is
`DONE`, and reads the elements from the result; finally collects up to `n`
elements (all of them when `n <= 0`) into a dataframe. -/
def head' (env : Env) (engine : Engine) (v : Val) (n : Int) (iw : Bool) :
    Except HeadError (Env × List Event × DF) :=
  match v with
  | Val.other _ => Except.error HeadError.notAPCollection
  | Val.pcoll pcoll =>
    let pl := pcoll.pipeline
    let watched := watchedPColls env
    let env1 :=
      if pcoll ∈ watched then env
      else { env with watching := env.watching ++ [[(anonName pcoll, Val.pcoll pcoll)]] }
    let wEvts :=
      if pcoll ∈ watched then ([] : List Event)
      else [Event.watchPColl (anonName pcoll) pcoll]
    let tr1 := Event.watchSources pl :: wEvts ++ [Event.attemptBcj pl]
    if pcoll ∈ env1.computed then
      let elements := env1.cache pcoll
      let results := headLoop n elements []
      Except.ok (env1, tr1 ++ [Event.readCache pcoll], DF.mk results iw)
    else
      let result := engine [pcoll]
      let env2 := { env1 with pipelineResults := env1.pipelineResults ++ [(pl, result)] }
      let tr2 := tr1 ++ [Event.runFragment [pcoll], Event.setPipelineResult pl,
        Event.waitUntilFinish]
      let env3 :=
        if result.state = PipelineState.DONE then markComputedEnv env2 [pcoll] else env2
      let tr3 :=
        if result.state = PipelineState.DONE then tr2 ++ [Event.markComputed [pcoll]]
        else tr2
      let elements := result.readElems pcoll
      let results := headLoop n elements []
      Except.ok (env3, tr3 ++ [Event.readResult pcoll], DF.mk results iw)

/-- `collect(pcoll, include_window_info)`: literally
`head(pcoll, n=-1, include_window_info=include_window_info)`. -/
def collect' (env : Env) (engine : Engine) (v : Val) (iw : Bool) :
    Except HeadError (Env × List Event × DF) :=
  head' env engine v (-1) iw

/-- A `datetime.timedelta`, abstracted to its `total_seconds()` value. -/
structure Timedelta where
  totalSeconds : Int
deriving DecidableEq

/-- The mutable capture-control state behind `Options`. -/
structure CaptureControl where
  enableCaptureReplay : Bool
  capturableSources : List Nat
  captureDuration : Timedelta
  captureSizeLimit : Int
deriving DecidableEq

/-- The `interactive_beam.Options` object. -/
structure IBOptions where
  captureControl : CaptureControl
  displayTimestampFormat : String
deriving DecidableEq

/-- The error raised by an `Options` setter assertion. -/
inductive OptionsError where
  | durationMustBePositive
deriving DecidableEq

/-- The `capture_duration` setter: `assert value.total_seconds() > 0,
'Duration must be a positive value.'`, then store the value.  An error
return models the assertion firing before the assignment, so the stored
duration is unchanged. -/
def setCaptureDuration (o : IBOptions) (v : Timedelta) : Except OptionsError IBOptions :=
  if 0 < v.totalSeconds then
    Except.ok { o with captureControl := { o.captureControl with captureDuration := v } }
  else Except.error OptionsError.durationMustBePositive

/-- The `capture_size_limit` setter: the source performs no validation at
all, it directly assigns `self.capture_control._capture_size_limit = value`.
The `Except` return type mirrors `setCaptureDuration` so that acceptance
and rejection are comparable; this setter never returns an error. -/
def setCaptureSizeLimit (o : IBOptions) (v : Int) : Except OptionsError IBOptions :=
  Except.ok { o with captureControl := { o.captureControl with captureSizeLimit := v } }

/-- The targets of a `show` call that still need to be computed:
`set(pcolls).difference(computed_pcolls)`. -/
def showTodo (computed : List PColl) (ts : List PColl) : List PColl :=
  (dedupFirst ts).filter fun p => !decide (p ∈ computed)

/-! ## Helper lemmas about the embedding -/

theorem mem_dedupFirst {p : PColl} {l : List PColl} : p ∈ dedupFirst l ↔ p ∈ l := by
  simp [dedupFirst, List.mem_reverse, List.mem_dedup]

theorem mem_showTodo {p : PColl} {c ts : List PColl} :
    p ∈ showTodo c ts ↔ p ∈ ts ∧ p ∉ c := by
  simp [showTodo, List.mem_filter, mem_dedupFirst]

theorem watchedOf_append (w₁ w₂ : List (List (String × Val))) :
    watchedOf (w₁ ++ w₂) = watchedOf w₁ ++ watchedOf w₂ := by
  simp [watchedOf, List.filterMap_append]

theorem watchedOf_single_pcoll (nm : String) (p : PColl) :
    watchedOf [[(nm, Val.pcoll p)]] = [p] := by
  simp [watchedOf]

theorem watchUnwatched_fst_computed (w : List PColl) (ts : List PColl) :
    ∀ env : Env, (watchUnwatched w env ts).1.computed = env.computed := by
  induction ts with
  | nil => intro env; rfl
  | cons p ps ih =>
    intro env
    by_cases hp : p ∈ w <;> simp [watchUnwatched, hp, ih]

theorem watchUnwatched_fst_cache (w : List PColl) (ts : List PColl) :
    ∀ env : Env, (watchUnwatched w env ts).1.cache = env.cache := by
  induction ts with
  | nil => intro env; rfl
  | cons p ps ih =>
    intro env
    by_cases hp : p ∈ w <;> simp [watchUnwatched, hp, ih]

theorem watchUnwatched_fst_isInNotebook (w : List PColl) (ts : List PColl) :
    ∀ env : Env, (watchUnwatched w env ts).1.isInNotebook = env.isInNotebook := by
  induction ts with
  | nil => intro env; rfl
  | cons p ps ih =>
    intro env
    by_cases hp : p ∈ w <;> simp [watchUnwatched, hp, ih]

theorem watchUnwatched_fst_isInIPython (w : List PColl) (ts : List PColl) :
    ∀ env : Env, (watchUnwatched w env ts).1.isInIPython = env.isInIPython := by
  induction ts with
  | nil => intro env; rfl
  | cons p ps ih =>
    intro env
    by_cases hp : p ∈ w <;> simp [watchUnwatched, hp, ih]

theorem watchUnwatched_fst_pipelineResults (w : List PColl) (ts : List PColl) :
    ∀ env : Env, (watchUnwatched w env ts).1.pipelineResults = env.pipelineResults := by
  induction ts with
  | nil => intro env; rfl
  | cons p ps ih =>
    intro env
    by_cases hp : p ∈ w <;> simp [watchUnwatched, hp, ih]

theorem watchUnwatched_fst_watching (w : List PColl) (ts : List PColl) :
    ∀ env : Env, watchedOf (watchUnwatched w env ts).1.watching =
      watchedOf env.watching ++ (ts.filter fun p => !decide (p ∈ w)) := by
  induction ts with
  | nil => intro env; simp [watchUnwatched]
  | cons p ps ih =>
    intro env
    by_cases hp : p ∈ w
    · simp [watchUnwatched, hp, ih, List.filter_cons]
    · simp only [watchUnwatched, hp, if_false, ih, List.filter_cons]
      simp [watchedOf_append, watchedOf_single_pcoll, hp]

theorem watchUnwatched_snd (w : List PColl) (ts : List PColl) :
    ∀ env : Env, (watchUnwatched w env ts).2 =
      (ts.filter fun p => !decide (p ∈ w)).map fun p => Event.watchPColl (anonName p) p := by
  induction ts with
  | nil => intro env; rfl
  | cons p ps ih =>
    intro env
    by_cases hp : p ∈ w <;> simp [watchUnwatched, hp, ih, List.filter_cons]

theorem mem_markComputedEnv (env : Env) (ps : List PColl) (q : PColl) :
    q ∈ (markComputedEnv env ps).computed ↔ q ∈ env.computed ∨ q ∈ ps := by
  constructor
  · intro h
    rcases List.mem_append.mp h with h | h
    · exact Or.inl h
    · exact Or.inr (List.mem_filter.mp h).1
  · intro h
    by_cases hq : q ∈ env.computed
    · exact List.mem_append.mpr (Or.inl hq)
    · rcases h with h | h
      · exact absurd h hq
      · exact List.mem_append.mpr (Or.inr (List.mem_filter.mpr ⟨h, by simp [hq]⟩))

theorem markComputedEnv_watching (env : Env) (ps : List PColl) :
    (markComputedEnv env ps).watching = env.watching := rfl

theorem markComputedEnv_cache (env : Env) (ps : List PColl) :
    (markComputedEnv env ps).cache = env.cache := rfl

theorem headLoop_nonpos (n : Int) (hn : ¬ 0 < n) :
    ∀ (es acc : List Elem), headLoop n es acc = acc ++ es := by
  intro es
  induction es with
  | nil => intro acc; simp [headLoop]
  | cons e es ih =>
    intro acc
    simp only [headLoop]
    rw [if_neg fun h => hn h.2, ih]
    simp

theorem headLoop_pos (n : Int) (hn : 0 < n) :
    ∀ (es acc : List Elem), (acc.length : Int) < n →
      headLoop n es acc = acc ++ es.take (n.toNat - acc.length) := by
  intro es
  induction es with
  | nil => intro acc _; simp [headLoop]
  | cons e es ih =>
    intro acc hlt
    simp only [headLoop]
    by_cases hc : n ≤ ((acc ++ [e]).length : Int)
    · rw [if_pos ⟨hc, hn⟩]
      have h1 : n.toNat - acc.length = 1 := by
        simp only [List.length_append, List.length_cons, List.length_nil] at hc
        omega
      rw [h1]
      simp
    · rw [if_neg fun h => hc h.1]
      have hlt' : (((acc ++ [e]).length : Nat) : Int) < n := by
        simp only [List.length_append, List.length_cons, List.length_nil] at hc ⊢
        omega
      rw [ih _ hlt']
      have h2 : n.toNat - acc.length = (n.toNat - (acc ++ [e]).length) + 1 := by
        simp only [List.length_append, List.length_cons, List.length_nil]
        omega
      rw [h2, List.take_succ_cons]
      simp

theorem headLoop_spec (n : Int) (es : List Elem) :
    headLoop n es [] = if 0 < n then es.take n.toNat else es := by
  by_cases hn : 0 < n
  · rw [if_pos hn, headLoop_pos n hn es [] (by simpa using hn)]
    simp
  · rw [if_neg hn, headLoop_nonpos n hn es []]
    simp

theorem showBody_of_all_computed (env : Env) (engine : Engine) (ts : List PColl) (pl : Nat)
    (h : ∀ p ∈ ts, p ∈ env.computed) :
    showBody env engine ts pl =
      ((watchUnwatched (watchedPColls env) env ts).1,
       Event.watchSources pl :: (watchUnwatched (watchedPColls env) env ts).2 ++
         [Event.attemptBcj pl] ++
         (if env.isInNotebook || env.isInIPython then (dedupFirst ts).map Event.visualize
          else [])) := by
  have hcomp := watchUnwatched_fst_computed (watchedPColls env) ts env
  have hnb := watchUnwatched_fst_isInNotebook (watchedPColls env) ts env
  have hip := watchUnwatched_fst_isInIPython (watchedPColls env) ts env
  have htodo : ((dedupFirst ts).filter fun p => !decide (p ∈ env.computed)) = [] := by
    refine List.filter_eq_nil_iff.mpr fun p hp => ?_
    simp [h p (mem_dedupFirst.mp hp)]
  have hkeep : ((dedupFirst ts).filter fun p => decide (p ∈ env.computed)) = dedupFirst ts := by
    refine List.filter_eq_self.mpr fun p hp => ?_
    simp [h p (mem_dedupFirst.mp hp)]
  simp only [showBody, hcomp, hnb, hip, htodo, hkeep, List.isEmpty_nil, if_true]

theorem showBody_of_run (env : Env) (engine : Engine) (ts : List PColl) (pl : Nat)
    (hne : showTodo env.computed ts ≠ []) :
    showBody env engine ts pl =
      ((if (engine (showTodo env.computed ts)).state = PipelineState.DONE then
          markComputedEnv
            { (watchUnwatched (watchedPColls env) env ts).1 with
              pipelineResults :=
                (watchUnwatched (watchedPColls env) env ts).1.pipelineResults ++
                  [(pl, engine (showTodo env.computed ts))] }
            (showTodo env.computed ts)
        else
          { (watchUnwatched (watchedPColls env) env ts).1 with
            pipelineResults :=
              (watchUnwatched (watchedPColls env) env ts).1.pipelineResults ++
                [(pl, engine (showTodo env.computed ts))] }),
       Event.watchSources pl ::
         ((watchUnwatched (watchedPColls env) env ts).2 ++
          ([Event.attemptBcj pl] ++
           ((if env.isInNotebook || env.isInIPython then
               ((dedupFirst ts).filter fun p => decide (p ∈ env.computed)).map Event.visualize
             else []) ++
            ([Event.runFragment (showTodo env.computed ts)] ++
             ([Event.setPipelineResult pl] ++
              ((if env.isInNotebook then (showTodo env.computed ts).map Event.visualize
                else []) ++
               ([Event.waitUntilFinish] ++
                ((if env.isInIPython && !env.isInNotebook then
                    (showTodo env.computed ts).map Event.visualize
                  else []) ++
                 (if (engine (showTodo env.computed ts)).state = PipelineState.DONE then
                    [Event.markComputed (showTodo env.computed ts)]
                  else [])))))))))) := by
  have hcomp := watchUnwatched_fst_computed (watchedPColls env) ts env
  have hnb := watchUnwatched_fst_isInNotebook (watchedPColls env) ts env
  have hip := watchUnwatched_fst_isInIPython (watchedPColls env) ts env
  have hne' : ((dedupFirst ts).filter fun p => !decide (p ∈ env.computed)).isEmpty = false := by
    simp only [showTodo] at hne
    simpa [List.isEmpty_iff] using hne
  simp only [showBody, showTodo, hcomp, hnb, hip, hne', if_false, Bool.false_eq_true]
  by_cases hd : (engine ((dedupFirst ts).filter fun p => !decide (p ∈ env.computed))).state =
      PipelineState.DONE <;>
    simp [hd, List.append_assoc]

theorem sublist_skip (w : List Event) {t r : List Event} (h : List.Sublist t r) :
    List.Sublist t (w ++ r) :=
  h.trans (List.sublist_append_right w r)

theorem sublist_pair (x a c : Event) (W R : List Event) (ha : a ∈ W)
    (hc : List.Sublist [c] R) : List.Sublist [a, c] (x :: (W ++ R)) := by
  obtain ⟨s, t, rfl⟩ := List.append_of_mem ha
  refine List.Sublist.cons x ?_
  rw [List.append_assoc, List.cons_append]
  exact sublist_skip s (List.cons_sublist_cons.mpr (sublist_skip t hc))

theorem watchPColl_not_mem_ite_vis (nm : String) (p : PColl) (c : Prop) [Decidable c]
    (ps : List PColl) :
    Event.watchPColl nm p ∉ (if c then ps.map Event.visualize else []) := by
  split <;> simp

theorem runFragment_not_mem_ite_vis (l : List PColl) (c : Prop) [Decidable c]
    (ps : List PColl) :
    Event.runFragment l ∉ (if c then ps.map Event.visualize else []) := by
  split <;> simp

theorem waitUntilFinish_not_mem_ite_vis (c : Prop) [Decidable c] (ps : List PColl) :
    Event.waitUntilFinish ∉ (if c then ps.map Event.visualize else []) := by
  split <;> simp

theorem watchPColl_not_mem_ite_mark (nm : String) (p : PColl) (c : Prop) [Decidable c]
    (ps : List PColl) :
    Event.watchPColl nm p ∉ (if c then [Event.markComputed ps] else []) := by
  split <;> simp

theorem runFragment_not_mem_ite_mark (l : List PColl) (c : Prop) [Decidable c]
    (ps : List PColl) :
    Event.runFragment l ∉ (if c then [Event.markComputed ps] else []) := by
  split <;> simp

/-- The environment `head` works with after the watch step: watching is
extended for an unwatched PCollection, everything else is unchanged. -/
def headEnv1 (env : Env) (p : PColl) : Env :=
  if p ∈ watchedPColls env then env
  else { env with watching := env.watching ++ [[(anonName p, Val.pcoll p)]] }

theorem headEnv1_computed (env : Env) (p : PColl) : (headEnv1 env p).computed = env.computed := by
  by_cases h : p ∈ watchedPColls env <;> simp [headEnv1, h]

theorem headEnv1_cache (env : Env) (p : PColl) : (headEnv1 env p).cache = env.cache := by
  by_cases h : p ∈ watchedPColls env <;> simp [headEnv1, h]

theorem head'_of_computed (env : Env) (engine : Engine) (p : PColl) (n : Int) (iw : Bool)
    (h : p ∈ env.computed) :
    head' env engine (Val.pcoll p) n iw =
      Except.ok (headEnv1 env p,
        Event.watchSources p.pipeline ::
          ((if p ∈ watchedPColls env then ([] : List Event)
            else [Event.watchPColl (anonName p) p]) ++
           ([Event.attemptBcj p.pipeline] ++ [Event.readCache p])),
        DF.mk (headLoop n (env.cache p) []) iw) := by
  by_cases hw : p ∈ watchedPColls env <;>
    simp [head', headEnv1, hw, h, List.append_assoc]

theorem head'_of_uncomputed (env : Env) (engine : Engine) (p : PColl) (n : Int) (iw : Bool)
    (h : p ∉ env.computed) :
    head' env engine (Val.pcoll p) n iw =
      Except.ok
        ((if (engine [p]).state = PipelineState.DONE then
            markComputedEnv
              { headEnv1 env p with
                pipelineResults :=
                  (headEnv1 env p).pipelineResults ++ [(p.pipeline, engine [p])] } [p]
          else
            { headEnv1 env p with
              pipelineResults :=
                (headEnv1 env p).pipelineResults ++ [(p.pipeline, engine [p])] }),
         Event.watchSources p.pipeline ::
           ((if p ∈ watchedPColls env then ([] : List Event)
             else [Event.watchPColl (anonName p) p]) ++
            ([Event.attemptBcj p.pipeline] ++
             ([Event.runFragment [p]] ++
              ([Event.setPipelineResult p.pipeline] ++
               ([Event.waitUntilFinish] ++
                ((if (engine [p]).state = PipelineState.DONE then
                    [Event.markComputed [p]]
                  else []) ++ [Event.readResult p])))))),
         DF.mk (headLoop n ((engine [p]).readElems p) []) iw) := by
  by_cases hw : p ∈ watchedPColls env <;>
    by_cases hd : (engine [p]).state = PipelineState.DONE <;>
      simp [head', headEnv1, hw, h, hd, List.append_assoc]

theorem show'_run_eq (env : Env) (engine : Engine) (args : List ShowArg) (cfg : Configs)
    (ts : List PColl) (pl : Nat)
    (hts : showTargets args = Except.ok (ts, pl)) (hcfg : cfg.extra = []) :
    show' env engine args cfg = Except.ok (showBody env engine ts pl) := by
  simp [show', hts, hcfg]

theorem showTodo_eq_nil_iff (c ts : List PColl) :
    showTodo c ts = [] ↔ ∀ p ∈ ts, p ∈ c := by
  simp [showTodo, List.filter_eq_nil_iff, mem_dedupFirst]

/-! ## Concrete fixtures used by the witnesses -/

/-- A PCollection of pipeline 0. -/
def samplePColl : PColl := ⟨0, 0⟩

/-- A second PCollection of pipeline 0. -/
def samplePColl1 : PColl := ⟨1, 0⟩

/-- A PCollection of a different pipeline. -/
def crossPColl : PColl := ⟨2, 1⟩

/-- An engine whose runs finish in state DONE and yield elements. -/
def sampleEngine : Engine := fun _ => ⟨PipelineState.DONE, fun _ => [10, 20, 30]⟩

/-- An engine whose runs finish in state FAILED. -/
def failEngine : Engine := fun _ => ⟨PipelineState.FAILED, fun _ => []⟩

/-- A fresh notebook environment. -/
def notebookEnv : Env := ⟨[], [], fun _ => [], [], true, true⟩

/-- A fresh non-interactive environment. -/
def plainEnv : Env := ⟨[], [], fun _ => [], [], false, false⟩

/-- An environment in which `samplePColl` is watched (as `x`) and computed,
with cached elements `[7, 8, 9]`. -/
def computedEnv : Env :=
  ⟨[[("x", Val.pcoll samplePColl)]], [samplePColl],
   fun p => if p = samplePColl then [7, 8, 9] else [], [], false, false⟩

/-- Keyword arguments carrying no unexpected configs. -/
def emptyCfg : Configs := ⟨none, none, []⟩

/-- A sample options object. -/
def sampleOptions : IBOptions := ⟨⟨true, [], ⟨60⟩, 1000000000⟩, "fmt"⟩

/-! ## Claims -/

/-- C5, as stated, is false on the code: the `capture_size_limit` setter has
no validation at all, so setting it to the non-positive value `-5` is not
rejected — it succeeds and stores `-5`. -/
theorem C5_counterexample :
    setCaptureSizeLimit sampleOptions (-5) =
      Except.ok
        { sampleOptions with
          captureControl := { sampleOptions.captureControl with captureSizeLimit := -5 } } ∧
    ({ sampleOptions with
       captureControl :=
         { sampleOptions.captureControl with
           captureSizeLimit := -5 } }).captureControl.captureSizeLimit = -5 := by
  exact ⟨rfl, rfl⟩

/-- C5 (amended): setting `options.capture_size_limit` always succeeds — the
setter performs no validation, so non-positive values are accepted as well —
and the getter then returns exactly the value that was set, leaving every
other option unchanged. -/
theorem C5_capture_size_limit_setter (o : IBOptions) (v : Int) :
    ∃ o', setCaptureSizeLimit o v = Except.ok o' ∧
      o'.captureControl.captureSizeLimit = v ∧
      o'.captureControl.captureDuration = o.captureControl.captureDuration ∧
      o'.captureControl.enableCaptureReplay = o.captureControl.enableCaptureReplay ∧
      o'.captureControl.capturableSources = o.captureControl.capturableSources := by
  exact ⟨_, rfl, rfl, rfl, rfl, rfl⟩

/-- C6: the `capture_duration` setter asserts
`value.total_seconds() > 0` (`'Duration must be a positive value.'`): a
non-positive duration makes the setter fail before any assignment (so the
stored duration is unchanged — the error return produces no updated options
object), while a strictly positive duration is stored and the getter then
returns exactly the value that was set. -/
theorem C6_capture_duration_setter (o : IBOptions) (v : Timedelta) :
    (v.totalSeconds ≤ 0 →
      setCaptureDuration o v = Except.error OptionsError.durationMustBePositive) ∧
    (0 < v.totalSeconds →
      ∃ o', setCaptureDuration o v = Except.ok o' ∧
        o'.captureControl.captureDuration = v ∧
        o'.captureControl.captureSizeLimit = o.captureControl.captureSizeLimit ∧
        o'.captureControl.enableCaptureReplay = o.captureControl.enableCaptureReplay) := by
  constructor
  · intro h
    rw [setCaptureDuration, if_neg (by omega)]
  · intro h
    rw [setCaptureDuration, if_pos h]
    exact ⟨_, rfl, rfl, rfl, rfl⟩

/-- Witness for C6: the setter rejects a zero duration and stores a
10-second duration. -/
theorem C6_witness :
    setCaptureDuration sampleOptions ⟨0⟩ = Except.error OptionsError.durationMustBePositive ∧
    (∃ o', setCaptureDuration sampleOptions ⟨10⟩ = Except.ok o' ∧
      o'.captureControl.captureDuration = ⟨10⟩ ∧
      o'.captureControl.captureSizeLimit = sampleOptions.captureControl.captureSizeLimit ∧
      o'.captureControl.enableCaptureReplay =
        sampleOptions.captureControl.enableCaptureReplay) :=
  ⟨(C6_capture_duration_setter sampleOptions ⟨0⟩).1 (by decide),
   (C6_capture_duration_setter sampleOptions ⟨10⟩).2 (by decide)⟩

/-- C8: `collect(pcoll, include_window_info)` is definitionally
`head(pcoll, n=-1, include_window_info)`, and therefore materializes every
element of the PCollection: on an already-computed PCollection it returns
all cached elements, and on an uncomputed one all elements the fragment run
produced. -/
theorem C8_collect_is_head_all :
    (∀ (env : Env) (engine : Engine) (v : Val) (iw : Bool),
      collect' env engine v iw = head' env engine v (-1) iw) ∧
    (∀ (env : Env) (engine : Engine) (p : PColl) (iw : Bool), p ∈ env.computed →
      ∃ env' tr, collect' env engine (Val.pcoll p) iw =
        Except.ok (env', tr, DF.mk (env.cache p) iw)) ∧
    (∀ (env : Env) (engine : Engine) (p : PColl) (iw : Bool), p ∉ env.computed →
      ∃ env' tr, collect' env engine (Val.pcoll p) iw =
        Except.ok (env', tr, DF.mk ((engine [p]).readElems p) iw)) := by
  refine ⟨fun env engine v iw => rfl, ?_, ?_⟩
  · intro env engine p iw h
    rw [collect', head'_of_computed env engine p (-1) iw h,
      headLoop_nonpos (-1) (by omega) (env.cache p) []]
    exact ⟨_, _, rfl⟩
  · intro env engine p iw h
    rw [collect', head'_of_uncomputed env engine p (-1) iw h,
      headLoop_nonpos (-1) (by omega) ((engine [p]).readElems p) []]
    exact ⟨_, _, rfl⟩

/-- Witness for C8: `collect` on the computed `samplePColl` returns all
three cached elements, and on the uncomputed `samplePColl1` all three
elements produced by the fragment run. -/
theorem C8_witness :
    (∃ env' tr, collect' computedEnv sampleEngine (Val.pcoll samplePColl) false =
      Except.ok (env', tr, DF.mk [7, 8, 9] false)) ∧
    (∃ env' tr, collect' computedEnv sampleEngine (Val.pcoll samplePColl1) false =
      Except.ok (env', tr, DF.mk [10, 20, 30] false)) := by
  constructor
  · have h := C8_collect_is_head_all.2.1 computedEnv sampleEngine samplePColl false
      (by decide)
    simpa [computedEnv] using h
  · have h := C8_collect_is_head_all.2.2 computedEnv sampleEngine samplePColl1 false
      (by decide)
    simpa [sampleEngine] using h

/-- C9: `head`'s element-collection loop keeps exactly the first
`min(n, total)` elements, in stream order, when `n > 0`; for every
`n ≤ 0` — including `n = 0` — the break never fires and all elements are
kept, so `head(pcoll, n=0)` returns all elements rather than an empty
dataframe. -/
theorem C9_head_loop_semantics :
    (∀ (n : Int) (es : List Elem), 0 < n → headLoop n es [] = es.take n.toNat) ∧
    (∀ (n : Int) (es : List Elem), n ≤ 0 → headLoop n es [] = es) ∧
    (∀ (env : Env) (engine : Engine) (p : PColl) (iw : Bool), p ∈ env.computed →
      ∃ env' tr, head' env engine (Val.pcoll p) 0 iw =
        Except.ok (env', tr, DF.mk (env.cache p) iw)) := by
  refine ⟨?_, ?_, ?_⟩
  · intro n es h
    rw [headLoop_spec, if_pos h]
  · intro n es h
    rw [headLoop_spec, if_neg (by omega)]
  · intro env engine p iw h
    rw [head'_of_computed env engine p 0 iw h,
      headLoop_nonpos 0 (by omega) (env.cache p) []]
    exact ⟨_, _, rfl⟩

/-- Witness for C9: with a 4-element stream, `n = 2` keeps the first two
elements, `n = -3` and `n = 0` keep all four; `head` with `n = 0` on the
computed `samplePColl` returns all three cached elements. -/
theorem C9_witness :
    headLoop 2 [1, 2, 3, 4] [] = [1, 2] ∧
    headLoop (-3) [1, 2, 3, 4] [] = [1, 2, 3, 4] ∧
    headLoop 0 [1, 2, 3, 4] [] = [1, 2, 3, 4] ∧
    (∃ env' tr, head' computedEnv sampleEngine (Val.pcoll samplePColl) 0 false =
      Except.ok (env', tr, DF.mk [7, 8, 9] false)) := by
  refine ⟨?_, ?_, ?_, ?_⟩
  · have h := C9_head_loop_semantics.1 2 [1, 2, 3, 4] (by decide)
    simpa using h
  · exact C9_head_loop_semantics.2.1 (-3) [1, 2, 3, 4] (by decide)
  · exact C9_head_loop_semantics.2.1 0 [1, 2, 3, 4] (by decide)
  · have h := C9_head_loop_semantics.2.2 computedEnv sampleEngine samplePColl false
      (by decide)
    simpa [computedEnv] using h

/-- C1: when every target of a `show` call is already in the environment's
computed set, and when `head` is called on an already-computed PCollection,
no pipeline fragment is built or submitted (no `runFragment` and no
`waitUntilFinish` occurs in the trace), the computed set is unchanged,
`show` returns after visualizing the cached results (when in a notebook or
ipython shell every target is visualized), and `head` reads the elements
back from the cache manager. -/
theorem C1_short_circuit (env : Env) (engine : Engine) :
    (∀ (args : List ShowArg) (cfg : Configs) (ts : List PColl) (pl : Nat),
      showTargets args = Except.ok (ts, pl) → cfg.extra = [] →
      (∀ p ∈ ts, p ∈ env.computed) →
      ∃ env' tr, show' env engine args cfg = Except.ok (env', tr) ∧
        (∀ l, Event.runFragment l ∉ tr) ∧
        Event.waitUntilFinish ∉ tr ∧
        env'.computed = env.computed ∧
        ((env.isInNotebook || env.isInIPython) = true →
          ∀ p ∈ ts, Event.visualize p ∈ tr)) ∧
    (∀ (p : PColl) (n : Int) (iw : Bool), p ∈ env.computed →
      ∃ env' tr df, head' env engine (Val.pcoll p) n iw = Except.ok (env', tr, df) ∧
        (∀ l, Event.runFragment l ∉ tr) ∧
        Event.waitUntilFinish ∉ tr ∧
        Event.readCache p ∈ tr ∧
        df = DF.mk (headLoop n (env.cache p) []) iw ∧
        env'.computed = env.computed) := by
  constructor
  · intro args cfg ts pl hts hcfg hall
    rw [show'_run_eq env engine args cfg ts pl hts hcfg,
      showBody_of_all_computed env engine ts pl hall]
    refine ⟨_, _, rfl, ?_, ?_, ?_, ?_⟩
    · intro l
      simp [watchUnwatched_snd, List.mem_append, List.mem_map]
    · simp [watchUnwatched_snd, List.mem_append, List.mem_map]
    · exact watchUnwatched_fst_computed (watchedPColls env) ts env
    · intro hmode p hp
      simp only [List.cons_append, List.mem_cons, List.mem_append, List.mem_map, hmode,
        if_true]
      exact Or.inr (Or.inr ⟨p, mem_dedupFirst.mpr hp, rfl⟩)
  · intro p n iw h
    rw [head'_of_computed env engine p n iw h]
    refine ⟨_, _, _, rfl, ?_, ?_, ?_, rfl, headEnv1_computed env p⟩
    · intro l
      by_cases hw : p ∈ watchedPColls env <;> simp [hw, List.mem_append]
    · by_cases hw : p ∈ watchedPColls env <;> simp [hw, List.mem_append]
    · by_cases hw : p ∈ watchedPColls env <;> simp [hw, List.mem_append]

/-- Witness for C1: `show` on the computed and watched `samplePColl` in
`computedEnv`, and `head` on the same PCollection. -/
theorem C1_witness :
    (∃ env' tr,
      show' computedEnv sampleEngine [ShowArg.pcoll samplePColl] emptyCfg =
        Except.ok (env', tr) ∧
      (∀ l, Event.runFragment l ∉ tr) ∧
      Event.waitUntilFinish ∉ tr ∧
      env'.computed = computedEnv.computed ∧
      ((computedEnv.isInNotebook || computedEnv.isInIPython) = true →
        ∀ p ∈ [samplePColl], Event.visualize p ∈ tr)) ∧
    (∃ env' tr df,
      head' computedEnv sampleEngine (Val.pcoll samplePColl) 5 false =
        Except.ok (env', tr, df) ∧
      (∀ l, Event.runFragment l ∉ tr) ∧
      Event.waitUntilFinish ∉ tr ∧
      Event.readCache samplePColl ∈ tr ∧
      df = DF.mk (headLoop 5 (computedEnv.cache samplePColl) []) false ∧
      env'.computed = computedEnv.computed) :=
  ⟨(C1_short_circuit computedEnv sampleEngine).1 [ShowArg.pcoll samplePColl] emptyCfg
      [samplePColl] 0 rfl rfl (by decide),
   (C1_short_circuit computedEnv sampleEngine).2 samplePColl 5 false (by decide)⟩

/-- C2: whenever `show` or `head` actually runs a pipeline fragment, the
uncomputed targets are added to the computed set if and only if the result
handle's state after `wait_until_finish` is `DONE`; in any other final
state the computed set is unchanged; in every case the call returns
normally (`Except.ok`) — the failure is surfaced only through the result
handle's state. -/
theorem C2_mark_computed_iff_done (env : Env) (engine : Engine) :
    (∀ (args : List ShowArg) (cfg : Configs) (ts : List PColl) (pl : Nat),
      showTargets args = Except.ok (ts, pl) → cfg.extra = [] →
      showTodo env.computed ts ≠ [] →
      ∃ env' tr, show' env engine args cfg = Except.ok (env', tr) ∧
        ∀ p, (p ∈ env'.computed ↔
          p ∈ env.computed ∨
            ((engine (showTodo env.computed ts)).state = PipelineState.DONE ∧
              p ∈ showTodo env.computed ts))) ∧
    (∀ (p : PColl) (n : Int) (iw : Bool), p ∉ env.computed →
      ∃ env' tr df, head' env engine (Val.pcoll p) n iw = Except.ok (env', tr, df) ∧
        ∀ q, (q ∈ env'.computed ↔
          q ∈ env.computed ∨ ((engine [p]).state = PipelineState.DONE ∧ q = p))) := by
  constructor
  · intro args cfg ts pl hts hcfg hne
    rw [show'_run_eq env engine args cfg ts pl hts hcfg, showBody_of_run env engine ts pl hne]
    refine ⟨_, _, rfl, ?_⟩
    intro p
    by_cases hd : (engine (showTodo env.computed ts)).state = PipelineState.DONE
    · simp only [hd, if_pos, true_and]
      rw [mem_markComputedEnv]
      simp [watchUnwatched_fst_computed]
    · simp only [hd, if_neg, false_and, or_false]
      simp [watchUnwatched_fst_computed, hd]
  · intro p n iw h
    rw [head'_of_uncomputed env engine p n iw h]
    refine ⟨_, _, _, rfl, ?_⟩
    intro q
    by_cases hd : (engine [p]).state = PipelineState.DONE
    · simp only [hd, if_pos, true_and]
      rw [mem_markComputedEnv]
      simp [headEnv1_computed]
    · simp only [hd, if_neg, false_and, or_false]
      simp [headEnv1_computed, hd]

/-- Witness for C2: a successful (`DONE`) `show` run on the uncomputed
`samplePColl`, and a failed (`FAILED`) `head` run, which still returns
normally and leaves the computed set unchanged. -/
theorem C2_witness :
    (∃ env' tr,
      show' plainEnv sampleEngine [ShowArg.pcoll samplePColl] emptyCfg =
        Except.ok (env', tr) ∧
      ∀ p, (p ∈ env'.computed ↔
        p ∈ plainEnv.computed ∨
          ((sampleEngine (showTodo plainEnv.computed [samplePColl])).state =
              PipelineState.DONE ∧
            p ∈ showTodo plainEnv.computed [samplePColl]))) ∧
    (∃ env' tr df,
      head' plainEnv failEngine (Val.pcoll samplePColl) 5 false =
        Except.ok (env', tr, df) ∧
      ∀ q, (q ∈ env'.computed ↔
        q ∈ plainEnv.computed ∨
          ((failEngine [samplePColl]).state = PipelineState.DONE ∧ q = samplePColl))) :=
  ⟨(C2_mark_computed_iff_done plainEnv sampleEngine).1 [ShowArg.pcoll samplePColl] emptyCfg
      [samplePColl] 0 rfl rfl (by decide),
   (C2_mark_computed_iff_done plainEnv failEngine).2 samplePColl 5 false (by decide)⟩

theorem checkAllPColls_map (ps : List PColl) :
    checkAllPColls (ps.map Val.pcoll) = Except.ok ps := by
  induction ps with
  | nil => rfl
  | cons p ps ih => simp [checkAllPColls, ih]

theorem exists_map_of_all_pcolls (vs : List Val) (h : ∀ v ∈ vs, ∃ p, v = Val.pcoll p) :
    ∃ ps : List PColl, vs = ps.map Val.pcoll := by
  induction vs with
  | nil => exact ⟨[], rfl⟩
  | cons v vs ih =>
    obtain ⟨p, rfl⟩ := h v (List.mem_cons_self v vs)
    obtain ⟨ps, rfl⟩ := ih fun w hw => h w (List.mem_cons_of_mem _ hw)
    exact ⟨p :: ps, rfl⟩

/-- C3: a `show` call whose flattened targets are PCollections of at least
two distinct pipelines fails with the cross-pipeline assertion (the spec's
`CrossPipelineError`).  The error return occurs in the validation phase of
the model, before any event is emitted: no fragment is built or submitted
and no side effect occurs. -/
theorem C3_cross_pipeline_rejected (env : Env) (engine : Engine) (args : List ShowArg)
    (cfg : Configs) (vs : List Val)
    (hflat : flattenArgs args = Except.ok vs)
    (hall : ∀ v ∈ vs, ∃ p, v = Val.pcoll p)
    (p q : PColl) (hp : Val.pcoll p ∈ vs) (hq : Val.pcoll q ∈ vs)
    (hneq : p.pipeline ≠ q.pipeline) :
    show' env engine args cfg = Except.error ShowError.crossPipeline := by
  obtain ⟨ps, rfl⟩ := exists_map_of_all_pcolls vs hall
  have hp' : p ∈ ps := by
    obtain ⟨a, ha, hae⟩ := List.mem_map.mp hp
    cases hae
    exact ha
  have hq' : q ∈ ps := by
    obtain ⟨a, ha, hae⟩ := List.mem_map.mp hq
    cases hae
    exact ha
  obtain ⟨p0, rest, rfl⟩ : ∃ p0 rest, ps = p0 :: rest := by
    cases ps with
    | nil => simp at hp'
    | cons p0 rest => exact ⟨p0, rest, rfl⟩
  have hchk : checkAllPColls (Val.pcoll p0 :: List.map Val.pcoll rest) =
      Except.ok (p0 :: rest) := checkAllPColls_map (p0 :: rest)
  have hforall : ¬ (∀ x ∈ rest, x.pipeline = p0.pipeline) := by
    intro hA
    have hA' : ∀ x ∈ p0 :: rest, x.pipeline = p0.pipeline := by
      intro x hx
      rcases List.mem_cons.mp hx with rfl | hx
      · rfl
      · exact hA x hx
    exact hneq ((hA' p hp').trans (hA' q hq').symm)
  simp [show', showTargets, hflat, validateTargets, hchk, hforall]

/-- Witness for C3: showing two PCollections of different pipelines fails
with the cross-pipeline error. -/
theorem C3_witness :
    show' plainEnv sampleEngine [ShowArg.pcoll samplePColl, ShowArg.pcoll crossPColl]
        emptyCfg =
      Except.error ShowError.crossPipeline :=
  C3_cross_pipeline_rejected plainEnv sampleEngine
    [ShowArg.pcoll samplePColl, ShowArg.pcoll crossPColl] emptyCfg
    [Val.pcoll samplePColl, Val.pcoll crossPColl] rfl
    (by
      intro v hv
      simp only [List.mem_cons, List.not_mem_nil, or_false] at hv
      rcases hv with rfl | rfl
      · exact ⟨samplePColl, rfl⟩
      · exact ⟨crossPColl, rfl⟩)
    samplePColl crossPColl (by decide) (by decide) (by decide)

theorem mem_watchedPColls_headEnv1 (env : Env) (p : PColl) :
    p ∈ watchedPColls (headEnv1 env p) := by
  by_cases hw : p ∈ watchedPColls env
  · simp [headEnv1, hw]
  · rw [headEnv1, if_neg hw]
    simp [watchedPColls, watchedOf_append, watchedOf_single_pcoll]

/-- C7: after any `show` or `head` call, every target PCollection is
watched; a target not already among the watched PCollections is registered
under the name `anonymous_pcollection_<id>`, and this happens before any
pipeline fragment is built or submitted; targets already watched are not
re-registered under any name. -/
theorem C7_targets_watched (env : Env) (engine : Engine) :
    (∀ (args : List ShowArg) (cfg : Configs) (ts : List PColl) (pl : Nat),
      showTargets args = Except.ok (ts, pl) → cfg.extra = [] →
      ∃ env' tr, show' env engine args cfg = Except.ok (env', tr) ∧
        (∀ p ∈ ts, p ∈ watchedPColls env') ∧
        (∀ p ∈ ts, p ∉ watchedPColls env → Event.watchPColl (anonName p) p ∈ tr) ∧
        (∀ p nm, p ∈ watchedPColls env → Event.watchPColl nm p ∉ tr) ∧
        (∀ nm q l, Event.watchPColl nm q ∈ tr → Event.runFragment l ∈ tr →
          List.Sublist [Event.watchPColl nm q, Event.runFragment l] tr)) ∧
    (∀ (p : PColl) (n : Int) (iw : Bool),
      ∃ env' tr df, head' env engine (Val.pcoll p) n iw = Except.ok (env', tr, df) ∧
        p ∈ watchedPColls env' ∧
        (p ∉ watchedPColls env → Event.watchPColl (anonName p) p ∈ tr) ∧
        (∀ nm, p ∈ watchedPColls env → Event.watchPColl nm p ∉ tr) ∧
        (∀ nm q l, Event.watchPColl nm q ∈ tr → Event.runFragment l ∈ tr →
          List.Sublist [Event.watchPColl nm q, Event.runFragment l] tr)) := by
  constructor
  · intro args cfg ts pl hts hcfg
    by_cases htodo : showTodo env.computed ts = []
    · rw [show'_run_eq env engine args cfg ts pl hts hcfg,
        showBody_of_all_computed env engine ts pl ((showTodo_eq_nil_iff _ _).mp htodo)]
      refine ⟨_, _, rfl, ?_, ?_, ?_, ?_⟩
      · intro p hp
        rw [watchedPColls, watchUnwatched_fst_watching]
        by_cases hw : p ∈ watchedPColls env
        · exact List.mem_append.mpr (Or.inl hw)
        · exact List.mem_append.mpr (Or.inr (List.mem_filter.mpr ⟨hp, by simp [hw]⟩))
      · intro p hp hnw
        have hmem : Event.watchPColl (anonName p) p ∈
            (watchUnwatched (watchedPColls env) env ts).2 := by
          rw [watchUnwatched_snd]
          exact List.mem_map.mpr ⟨p, List.mem_filter.mpr ⟨hp, by simp [hnw]⟩, rfl⟩
        exact List.mem_cons_of_mem _
          (List.mem_append.mpr (Or.inl (List.mem_append.mpr (Or.inl hmem))))
      · intro p nm hpw hmem
        rcases List.mem_cons.mp hmem with heq | hmem'
        · exact absurd heq (by simp)
        rcases List.mem_append.mp hmem' with hmem2 | hvis
        · rcases List.mem_append.mp hmem2 with hw2 | hb
          · rw [watchUnwatched_snd] at hw2
            obtain ⟨a, haf, hae⟩ := List.mem_map.mp hw2
            injection hae with h1 h2
            subst h2
            exact absurd hpw (by simpa using (List.mem_filter.mp haf).2)
          · exact absurd hb (by simp)
        · exact absurd hvis (watchPColl_not_mem_ite_vis nm p _ _)
      · intro nm q l _ hrl
        exact absurd hrl (by simp [watchUnwatched_snd, runFragment_not_mem_ite_vis])
    · rw [show'_run_eq env engine args cfg ts pl hts hcfg,
        showBody_of_run env engine ts pl htodo]
      refine ⟨_, _, rfl, ?_, ?_, ?_, ?_⟩
      · intro p hp
        have hwe : watchedPColls
            (if (engine (showTodo env.computed ts)).state = PipelineState.DONE then
              markComputedEnv
                { (watchUnwatched (watchedPColls env) env ts).1 with
                  pipelineResults :=
                    (watchUnwatched (watchedPColls env) env ts).1.pipelineResults ++
                      [(pl, engine (showTodo env.computed ts))] }
                (showTodo env.computed ts)
            else
              { (watchUnwatched (watchedPColls env) env ts).1 with
                pipelineResults :=
                  (watchUnwatched (watchedPColls env) env ts).1.pipelineResults ++
                    [(pl, engine (showTodo env.computed ts))] }) =
            watchedOf (watchUnwatched (watchedPColls env) env ts).1.watching := by
          split <;> rfl
        rw [hwe, watchUnwatched_fst_watching]
        by_cases hw : p ∈ watchedPColls env
        · exact List.mem_append.mpr (Or.inl hw)
        · exact List.mem_append.mpr (Or.inr (List.mem_filter.mpr ⟨hp, by simp [hw]⟩))
      · intro p hp hnw
        have hmem : Event.watchPColl (anonName p) p ∈
            (watchUnwatched (watchedPColls env) env ts).2 := by
          rw [watchUnwatched_snd]
          exact List.mem_map.mpr ⟨p, List.mem_filter.mpr ⟨hp, by simp [hnw]⟩, rfl⟩
        exact List.mem_cons_of_mem _ (List.mem_append.mpr (Or.inl hmem))
      · intro p nm hpw hmem
        rcases List.mem_cons.mp hmem with heq | hmem'
        · exact absurd heq (by simp)
        rcases List.mem_append.mp hmem' with hw2 | hrest
        · rw [watchUnwatched_snd] at hw2
          obtain ⟨a, haf, hae⟩ := List.mem_map.mp hw2
          injection hae with h1 h2
          subst h2
          exact absurd hpw (by simpa using (List.mem_filter.mp haf).2)
        · exact absurd hrest
            (by simp [watchPColl_not_mem_ite_vis, watchPColl_not_mem_ite_mark])
      · intro nm q l hwq hrl
        have hql : Event.watchPColl nm q ∈
            (watchUnwatched (watchedPColls env) env ts).2 := by
          rcases List.mem_cons.mp hwq with heq | h'
          · exact absurd heq (by simp)
          rcases List.mem_append.mp h' with h2 | h3
          · exact h2
          · exact absurd h3
              (by simp [watchPColl_not_mem_ite_vis, watchPColl_not_mem_ite_mark])
        have hl : l = showTodo env.computed ts := by
          rcases List.mem_cons.mp hrl with heq | h'
          · exact absurd heq (by simp)
          rcases List.mem_append.mp h' with h2 | h3
          · exact absurd h2 (by simp [watchUnwatched_snd])
          · simpa [runFragment_not_mem_ite_vis, runFragment_not_mem_ite_mark] using h3
        subst hl
        refine sublist_pair _ _ _ _ _ hql ?_
        exact sublist_skip [Event.attemptBcj pl]
          (sublist_skip _ (List.sublist_append_left _ _))
  · intro p n iw
    by_cases hc : p ∈ env.computed
    · rw [head'_of_computed env engine p n iw hc]
      refine ⟨_, _, _, rfl, mem_watchedPColls_headEnv1 env p, ?_, ?_, ?_⟩
      · intro hnw
        simp [hnw]
      · intro nm hw
        simp [hw]
      · intro nm q l _ hrl
        by_cases hw : p ∈ watchedPColls env <;>
          exact absurd hrl (by simp [hw])
    · rw [head'_of_uncomputed env engine p n iw hc]
      have hwe : watchedPColls
          (if (engine [p]).state = PipelineState.DONE then
            markComputedEnv
              { headEnv1 env p with
                pipelineResults :=
                  (headEnv1 env p).pipelineResults ++ [(p.pipeline, engine [p])] } [p]
          else
            { headEnv1 env p with
              pipelineResults :=
                (headEnv1 env p).pipelineResults ++ [(p.pipeline, engine [p])] }) =
          watchedPColls (headEnv1 env p) := by
        split <;> rfl
      refine ⟨_, _, _, rfl, ?_, ?_, ?_, ?_⟩
      · rw [hwe]
        exact mem_watchedPColls_headEnv1 env p
      · intro hnw
        simp [hnw]
      · intro nm hw
        simp [hw, watchPColl_not_mem_ite_mark]
      · intro nm q l hwq hrl
        by_cases hw : p ∈ watchedPColls env
        · exact absurd hwq (by simp [hw, watchPColl_not_mem_ite_mark])
        · have hql : Event.watchPColl nm q ∈
              (if p ∈ watchedPColls env then ([] : List Event)
               else [Event.watchPColl (anonName p) p]) := by
            rcases List.mem_cons.mp hwq with heq | h'
            · exact absurd heq (by simp)
            rcases List.mem_append.mp h' with h2 | h3
            · exact h2
            · exact absurd h3 (by simp [watchPColl_not_mem_ite_mark])
          have hl : l = [p] := by
            rcases List.mem_cons.mp hrl with heq | h'
            · exact absurd heq (by simp)
            rcases List.mem_append.mp h' with h2 | h3
            · exact absurd h2 (by simp [hw])
            · simpa [runFragment_not_mem_ite_mark] using h3
          subst hl
          refine sublist_pair _ _ _ _ _ hql ?_
          exact sublist_skip [Event.attemptBcj p.pipeline]
            (List.sublist_append_left _ _)

/-- Witness for C7: in a fresh environment nothing is watched, so `show`
registers `samplePColl` under its anonymous name before running the
fragment, and `head` registers `samplePColl1` likewise. -/
theorem C7_witness :
    (∃ env' tr,
      show' plainEnv sampleEngine [ShowArg.pcoll samplePColl] emptyCfg =
        Except.ok (env', tr) ∧
      (∀ p ∈ [samplePColl], p ∈ watchedPColls env') ∧
      (∀ p ∈ [samplePColl], p ∉ watchedPColls plainEnv →
        Event.watchPColl (anonName p) p ∈ tr) ∧
      (∀ p nm, p ∈ watchedPColls plainEnv → Event.watchPColl nm p ∉ tr) ∧
      (∀ nm q l, Event.watchPColl nm q ∈ tr → Event.runFragment l ∈ tr →
        List.Sublist [Event.watchPColl nm q, Event.runFragment l] tr)) ∧
    (∃ env' tr df,
      head' plainEnv sampleEngine (Val.pcoll samplePColl1) 5 false =
        Except.ok (env', tr, df) ∧
      samplePColl1 ∈ watchedPColls env' ∧
      (samplePColl1 ∉ watchedPColls plainEnv →
        Event.watchPColl (anonName samplePColl1) samplePColl1 ∈ tr) ∧
      (∀ nm, samplePColl1 ∈ watchedPColls plainEnv → Event.watchPColl nm samplePColl1 ∉ tr) ∧
      (∀ nm q l, Event.watchPColl nm q ∈ tr → Event.runFragment l ∈ tr →
        List.Sublist [Event.watchPColl nm q, Event.runFragment l] tr)) :=
  ⟨(C7_targets_watched plainEnv sampleEngine).1 [ShowArg.pcoll samplePColl] emptyCfg
      [samplePColl] 0 rfl rfl,
   (C7_targets_watched plainEnv sampleEngine).2 samplePColl1 5 false⟩

theorem flattenArgs_error_of_nonIterable (args : List ShowArg)
    (h : ∃ k, ShowArg.nonIterable k ∈ args) :
    flattenArgs args = Except.error ShowError.notIterable := by
  obtain ⟨k, hk⟩ := h
  induction args with
  | nil => cases hk
  | cons a as ih =>
    rcases List.mem_cons.mp hk with rfl | hk'
    · rfl
    · cases a with
      | dict vs => simp [flattenArgs, flattenArg, ih hk']
      | pcoll p => simp [flattenArgs, flattenArg, ih hk']
      | iterable vs => simp [flattenArgs, flattenArg, ih hk']
      | nonIterable t => rfl

theorem checkAllPColls_error_of_other (vs : List Val) (h : ∃ t, Val.other t ∈ vs) :
    checkAllPColls vs = Except.error ShowError.notAPCollection := by
  obtain ⟨t, ht⟩ := h
  induction vs with
  | nil => cases ht
  | cons v ws ih =>
    rcases List.mem_cons.mp ht with rfl | ht'
    · rfl
    · cases v with
      | pcoll p => simp [checkAllPColls, ih ht']
      | other s => rfl

/-- C10: `show`'s input normalization and validation.  Each positional dict
contributes its values, a bare PCollection contributes itself, any other
iterable is flattened element-wise, and a non-iterable argument raises
`ValueError`; after flattening, an empty target list, a flattened element
that is not a PCollection, or a keyword argument other than
`include_window_info` and `visualize_data` makes the call fail.  Every one
of these failures is an error return of the validation phase, before any
fragment is built or any other side effect occurs. -/
theorem C10_show_input_validation :
    (∀ vs, flattenArg (ShowArg.dict vs) = Except.ok vs) ∧
    (∀ p, flattenArg (ShowArg.pcoll p) = Except.ok [Val.pcoll p]) ∧
    (∀ vs, flattenArg (ShowArg.iterable vs) = Except.ok vs) ∧
    (∀ k, flattenArg (ShowArg.nonIterable k) = Except.error ShowError.notIterable) ∧
    (∀ (env : Env) (engine : Engine) (args : List ShowArg) (cfg : Configs),
      (∃ k, ShowArg.nonIterable k ∈ args) →
      show' env engine args cfg = Except.error ShowError.notIterable) ∧
    (∀ (env : Env) (engine : Engine) (args : List ShowArg) (cfg : Configs),
      flattenArgs args = Except.ok [] →
      show' env engine args cfg = Except.error ShowError.needAtLeastOnePColl) ∧
    (∀ (env : Env) (engine : Engine) (args : List ShowArg) (cfg : Configs) (vs : List Val),
      flattenArgs args = Except.ok vs → (∃ t, Val.other t ∈ vs) →
      show' env engine args cfg = Except.error ShowError.notAPCollection) ∧
    (∀ (env : Env) (engine : Engine) (args : List ShowArg) (cfg : Configs)
      (ts : List PColl) (pl : Nat),
      showTargets args = Except.ok (ts, pl) → cfg.extra ≠ [] →
      show' env engine args cfg = Except.error ShowError.unexpectedConfigs) := by
  refine ⟨fun vs => rfl, fun p => rfl, fun vs => rfl, fun k => rfl, ?_, ?_, ?_, ?_⟩
  · intro env engine args cfg h
    simp [show', showTargets, flattenArgs_error_of_nonIterable args h]
  · intro env engine args cfg h
    simp [show', showTargets, h, validateTargets]
  · intro env engine args cfg vs hflat hother
    have hvs : vs ≠ [] := by
      obtain ⟨t, ht⟩ := hother
      intro hnil
      rw [hnil] at ht
      cases ht
    simp [show', showTargets, hflat, validateTargets, List.isEmpty_iff, hvs,
      checkAllPColls_error_of_other vs hother]
  · intro env engine args cfg ts pl hts hcfg
    simp [show', hts, hcfg]

/-- Witness for C10: a non-iterable argument raises the `ValueError`, an
empty iterable leaves no targets, a dict with a non-PCollection value fails
the type assertion, and an unrecognized keyword argument fails the configs
assertion. -/
theorem C10_witness :
    show' plainEnv sampleEngine [ShowArg.nonIterable 3] emptyCfg =
      Except.error ShowError.notIterable ∧
    show' plainEnv sampleEngine [ShowArg.iterable []] emptyCfg =
      Except.error ShowError.needAtLeastOnePColl ∧
    show' plainEnv sampleEngine [ShowArg.dict [Val.other 1]] emptyCfg =
      Except.error ShowError.notAPCollection ∧
    show' plainEnv sampleEngine [ShowArg.pcoll samplePColl]
        ⟨none, none, ["bad_config"]⟩ =
      Except.error ShowError.unexpectedConfigs :=
  ⟨C10_show_input_validation.2.2.2.2.1 plainEnv sampleEngine [ShowArg.nonIterable 3]
      emptyCfg ⟨3, List.mem_singleton.mpr rfl⟩,
   C10_show_input_validation.2.2.2.2.2.1 plainEnv sampleEngine [ShowArg.iterable []]
      emptyCfg rfl,
   C10_show_input_validation.2.2.2.2.2.2.1 plainEnv sampleEngine
      [ShowArg.dict [Val.other 1]] emptyCfg [Val.other 1] rfl
      ⟨1, List.mem_singleton.mpr rfl⟩,
   C10_show_input_validation.2.2.2.2.2.2.2 plainEnv sampleEngine
      [ShowArg.pcoll samplePColl] ⟨none, none, ["bad_config"]⟩ [samplePColl] 0 rfl
      (by simp)⟩

theorem mem_left_of_mem_cons_append {e x : Event} {W R : List Event}
    (h : e ∈ x :: (W ++ R)) (hx : e ≠ x) (hR : e ∉ R) : e ∈ W := by
  rcases List.mem_cons.mp h with rfl | h'
  · exact absurd rfl hx
  rcases List.mem_append.mp h' with h2 | h3
  · exact h2
  · exact absurd h3 hR

/-- C4, as stated, is false on the code: in a notebook, `show` starts
dynamic visualization of the uncomputed targets BEFORE `wait_until_finish`
(source lines 374-384), so the element results are not visualized only
after completion and computed-state recording.  At the concrete input below
the trace contains `visualize` at index 5 and `waitUntilFinish` at index 6. -/
theorem C4_counterexample :
    (show' notebookEnv sampleEngine [ShowArg.pcoll samplePColl] emptyCfg).toOption.map
        Prod.snd =
      some [Event.watchSources 0,
        Event.watchPColl (anonName samplePColl) samplePColl,
        Event.attemptBcj 0,
        Event.runFragment [samplePColl],
        Event.setPipelineResult 0,
        Event.visualize samplePColl,
        Event.waitUntilFinish,
        Event.markComputed [samplePColl]] ∧
    List.indexOf (Event.visualize samplePColl)
        [Event.watchSources 0,
          Event.watchPColl (anonName samplePColl) samplePColl,
          Event.attemptBcj 0,
          Event.runFragment [samplePColl],
          Event.setPipelineResult 0,
          Event.visualize samplePColl,
          Event.waitUntilFinish,
          Event.markComputed [samplePColl]] <
      List.indexOf Event.waitUntilFinish
        [Event.watchSources 0,
          Event.watchPColl (anonName samplePColl) samplePColl,
          Event.attemptBcj 0,
          Event.runFragment [samplePColl],
          Event.setPipelineResult 0,
          Event.visualize samplePColl,
          Event.waitUntilFinish,
          Event.markComputed [samplePColl]] := by
  exact ⟨by decide, by decide⟩

/-- C4 (amended): for `show` with at least one uncomputed target and for
`head` on an uncomputed PCollection, the core operations do occur in the
spec's order — `watch_sources` first, then the watching of any unwatched
target, the background caching job attempt, fragment submission,
`wait_until_finish`, and (when the final state is DONE) computed-state
recording; `head` reads the element results only after that.  What the
original claim gets wrong is `show`'s visualization of the uncomputed
targets: in a notebook dynamic visualization starts before
`wait_until_finish`, and in a plain ipython shell visualization happens
after `wait_until_finish` but before computed-state is recorded. -/
theorem C4_core_operations_ordered (env : Env) (engine : Engine) :
    (∀ (args : List ShowArg) (cfg : Configs) (ts : List PColl) (pl : Nat),
      showTargets args = Except.ok (ts, pl) → cfg.extra = [] →
      showTodo env.computed ts ≠ [] →
      ∃ env' tr, show' env engine args cfg = Except.ok (env', tr) ∧
        List.Sublist
          ([Event.watchSources pl, Event.attemptBcj pl,
            Event.runFragment (showTodo env.computed ts), Event.waitUntilFinish] ++
           (if (engine (showTodo env.computed ts)).state = PipelineState.DONE then
              [Event.markComputed (showTodo env.computed ts)]
            else [])) tr ∧
        (∀ nm q, Event.watchPColl nm q ∈ tr →
          List.Sublist [Event.watchSources pl, Event.watchPColl nm q,
            Event.attemptBcj pl] tr)) ∧
    (∀ (p : PColl) (n : Int) (iw : Bool), p ∉ env.computed →
      ∃ env' tr df, head' env engine (Val.pcoll p) n iw = Except.ok (env', tr, df) ∧
        List.Sublist
          ([Event.watchSources p.pipeline, Event.attemptBcj p.pipeline,
            Event.runFragment [p], Event.waitUntilFinish] ++
           ((if (engine [p]).state = PipelineState.DONE then [Event.markComputed [p]]
             else []) ++ [Event.readResult p])) tr ∧
        (p ∉ watchedPColls env →
          List.Sublist [Event.watchSources p.pipeline, Event.watchPColl (anonName p) p,
            Event.attemptBcj p.pipeline] tr) ∧
        df = DF.mk (headLoop n ((engine [p]).readElems p) []) iw) := by
  constructor
  · intro args cfg ts pl hts hcfg htodo
    rw [show'_run_eq env engine args cfg ts pl hts hcfg, showBody_of_run env engine ts pl htodo]
    refine ⟨_, _, rfl, ?_, ?_⟩
    · simp only [List.cons_append, List.nil_append]
      refine List.cons_sublist_cons.mpr ?_
      refine sublist_skip _ ?_
      refine List.cons_sublist_cons.mpr ?_
      refine sublist_skip _ ?_
      refine List.cons_sublist_cons.mpr ?_
      refine List.Sublist.cons _ ?_
      refine sublist_skip _ ?_
      refine List.cons_sublist_cons.mpr ?_
      exact sublist_skip _ (List.Sublist.refl _)
    · intro nm q hwq
      have hql : Event.watchPColl nm q ∈ (watchUnwatched (watchedPColls env) env ts).2 :=
        mem_left_of_mem_cons_append hwq (by simp)
          (by simp [watchPColl_not_mem_ite_vis, watchPColl_not_mem_ite_mark])
      obtain ⟨s, t, hW⟩ := List.append_of_mem hql
      rw [hW]
      simp only [List.cons_append, List.nil_append]
      refine List.cons_sublist_cons.mpr ?_
      rw [List.append_assoc, List.cons_append]
      refine sublist_skip s ?_
      refine List.cons_sublist_cons.mpr ?_
      refine sublist_skip t ?_
      exact List.cons_sublist_cons.mpr (List.nil_sublist _)
  · intro p n iw hc
    rw [head'_of_uncomputed env engine p n iw hc]
    refine ⟨_, _, _, rfl, ?_, ?_, rfl⟩
    · simp only [List.cons_append, List.nil_append]
      refine List.cons_sublist_cons.mpr ?_
      refine sublist_skip _ ?_
      refine List.cons_sublist_cons.mpr ?_
      refine List.cons_sublist_cons.mpr ?_
      refine List.Sublist.cons _ ?_
      refine List.cons_sublist_cons.mpr ?_
      exact List.Sublist.refl _
    · intro hnw
      rw [if_neg hnw]
      simp only [List.cons_append, List.nil_append]
      refine List.cons_sublist_cons.mpr ?_
      refine List.cons_sublist_cons.mpr ?_
      exact List.cons_sublist_cons.mpr (List.nil_sublist _)

/-- Witness for C4 (amended): the ordered core chain for a `show` run and a
`head` run in a fresh environment. -/
theorem C4_witness :
    (∃ env' tr,
      show' plainEnv sampleEngine [ShowArg.pcoll samplePColl] emptyCfg =
        Except.ok (env', tr) ∧
      List.Sublist
        ([Event.watchSources 0, Event.attemptBcj 0,
          Event.runFragment (showTodo plainEnv.computed [samplePColl]),
          Event.waitUntilFinish] ++
         (if (sampleEngine (showTodo plainEnv.computed [samplePColl])).state =
             PipelineState.DONE then
            [Event.markComputed (showTodo plainEnv.computed [samplePColl])]
          else [])) tr ∧
      (∀ nm q, Event.watchPColl nm q ∈ tr →
        List.Sublist [Event.watchSources 0, Event.watchPColl nm q,
          Event.attemptBcj 0] tr)) ∧
    (∃ env' tr df,
      head' plainEnv sampleEngine (Val.pcoll samplePColl1) 5 false =
        Except.ok (env', tr, df) ∧
      List.Sublist
        ([Event.watchSources samplePColl1.pipeline,
          Event.attemptBcj samplePColl1.pipeline,
          Event.runFragment [samplePColl1], Event.waitUntilFinish] ++
         ((if (sampleEngine [samplePColl1]).state = PipelineState.DONE then
             [Event.markComputed [samplePColl1]]
           else []) ++ [Event.readResult samplePColl1])) tr ∧
      (samplePColl1 ∉ watchedPColls plainEnv →
        List.Sublist [Event.watchSources samplePColl1.pipeline,
          Event.watchPColl (anonName samplePColl1) samplePColl1,
          Event.attemptBcj samplePColl1.pipeline] tr) ∧
      df = DF.mk (headLoop 5 ((sampleEngine [samplePColl1]).readElems samplePColl1) [])
        false) :=
  ⟨(C4_core_operations_ordered plainEnv sampleEngine).1 [ShowArg.pcoll samplePColl]
      emptyCfg [samplePColl] 0 rfl rfl (by decide),
   (C4_core_operations_ordered plainEnv sampleEngine).2 samplePColl1 5 false (by decide)⟩

end InteractiveBeam
